import Mathlib

/-!
Shallow embedding of the translation-ranker repository's core logic.

Sources embedded here:
* `src/app/page.tsx` — `loadData` (row parsing, eligibility classification,
  bucket selection, batch sampling, per-row shuffling), `onDragEnd`
  (drag-and-drop reorder), `checkAllInteractions` / `canSubmit`.
* `src/google-apps-script.js` — `doPost` (the commit coordinator: row lookup,
  round-slot targeting from a snapshot of the ranking columns, payload
  validation, cell writes and read-back).
* `src/app/api/update-sheet/route.ts` — the `POST` handler's request guard.

JavaScript strings are modelled as Lean `String`s; spreadsheet cells as
`String`s where the empty string is the empty cell; JS `undefined`/absent
values as `Option`.
-/

/-- Whitespace trim on the underlying characters, modelling JS
`String.prototype.trim`: strip leading and trailing whitespace. (Defined
on `List Char` so that it reduces in the kernel.) -/
def trimChars (cs : List Char) : List Char :=
  ((cs.dropWhile Char.isWhitespace).reverse.dropWhile Char.isWhitespace).reverse

/-- String form of `trimChars`. -/
def strTrim (s : String) : String := ⟨trimChars s.data⟩

/-- Cell access `row[i]?.trim() || ''` from `loadData` (page.tsx):
out-of-range access yields the empty string, present cells are trimmed. -/
def getCell (row : List String) (i : Nat) : String :=
  strTrim ((row.get? i).getD "")

/-- First maximal digit run of a character list, as in the JS regexp
match `id.match(/\d+/)` used by `loadData` (page.tsx line 140). -/
def firstDigitRun : List Char → Option (List Char)
  | [] => none
  | c :: rest =>
      if c.isDigit then some (c :: rest.takeWhile Char.isDigit)
      else firstDigitRun rest

/-- Digit characters to the natural number they denote (the effect of
`parseInt(run, 10)` on a digit-only run). -/
def digitsToNat (ds : List Char) : Nat :=
  ds.foldl (fun a c => a * 10 + (c.toNat - 48)) 0

/-- Numeric component of an id string: `parseInt(id.match(/\d+/)[0], 10)`
from page.tsx lines 140-141, `none` when the id has no digit. -/
def numericId (s : String) : Option Nat :=
  (firstDigitRun s.data).map digitsToNat

/-- Header configuration resolved by `loadData` before the row loop:
`idIndex`, `sentenceIndex` and the six annotator column indices found by
`findColumnIndex` (page.tsx lines 60-115). A JS `-1` result (column not
found) is modelled as `none`. -/
structure HeaderCfg where
  idIndex : Nat
  sentenceIndex : Nat
  a1Rank : Option Nat
  a2Rank : Option Nat
  a3Rank : Option Nat
  a1Com : Option Nat
  a2Com : Option Nat
  a3Com : Option Nat

/-- Annotator cell value: `idx >= 0 ? (row[idx]?.trim() || '') : ''`
(page.tsx lines 163-169). -/
def annValue (row : List String) : Option Nat → String
  | some i => getCell row i
  | none => ""

/-- Completion of one annotator round (page.tsx lines 171-179): when both
the round's ranking column and comment column were resolved in the header,
the round is complete iff both cells are non-empty; otherwise it is
complete iff the ranking cell alone is non-empty. -/
def roundComplete (row : List String) (rankIdx comIdx : Option Nat) : Bool :=
  match rankIdx, comIdx with
  | some ri, some ci =>
      decide (0 < (getCell row ri).length) && decide (0 < (getCell row ci).length)
  | _, _ => decide (0 < (annValue row rankIdx).length)

/-- Completion of round `n ∈ {1,2,3}` for a raw row under a header
configuration; rounds other than 1..3 do not exist and count complete. -/
def roundCompleteN (cfg : HeaderCfg) (row : List String) : Nat → Bool
  | 1 => roundComplete row cfg.a1Rank cfg.a1Com
  | 2 => roundComplete row cfg.a2Rank cfg.a2Com
  | 3 => roundComplete row cfg.a3Rank cfg.a3Com
  | _ => true

/-- The eligibility classifier (page.tsx lines 181-189): the first
incomplete round in the fixed order 1, 2, 3, or `none` when all three
rounds are complete. -/
def needsRound (cfg : HeaderCfg) (row : List String) : Option Nat :=
  if !roundComplete row cfg.a1Rank cfg.a1Com then some 1
  else if !roundComplete row cfg.a2Rank cfg.a2Com then some 2
  else if !roundComplete row cfg.a3Rank cfg.a3Com then some 3
  else none

/-- A parsed sentence record as built by the row loop of `loadData`
(page.tsx lines 128-215), before the per-row shuffle is applied:
`translations` and `translationColumns` are the parallel candidate lists
in sheet order, `needsAnnotatorRound` the classifier's verdict. -/
structure ParsedRow where
  id : String
  sentence : String
  translations : List String
  translationColumns : List String
  needsAnnotatorRound : Nat
deriving DecidableEq, Repr

/-- Candidate texts and column keys of a row (page.tsx lines 148-160):
for each of the 7 candidate slots, the trimmed cell and the header's
column name are kept only when both are non-empty, pushed to the two
parallel lists under one shared condition. -/
def buildCandidates (hcols : List String) (row : List String) (start : Nat) :
    List String × List String :=
  let pairs := (List.range 7).filterMap fun j =>
    let t := getCell row (start + j)
    let c := hcols.getD j ""
    if t ≠ "" ∧ c ≠ "" then some (t, c) else none
  (pairs.map Prod.fst, pairs.map Prod.snd)

/-- One iteration of the row loop of `loadData` (page.tsx lines 130-215):
`none` means the row is discarded (`continue`). The discard conditions, in
source order: too few cells; missing id or sentence; numeric id component
missing or outside 0-49; fully annotated; no candidates. The per-row
shuffle applied to accepted rows is handled separately (see `mkLoadedRow`);
this function returns the record's sheet-order data plus its round tag. -/
def parsedRow (cfg : HeaderCfg) (hcols : List String) (row : List String) :
    Option ParsedRow :=
  if row.length < cfg.sentenceIndex + 1 + 7 then none
  else if getCell row cfg.idIndex = "" ∨ getCell row cfg.sentenceIndex = "" then none
  else
    match numericId (getCell row cfg.idIndex) with
    | none => none
    | some n =>
        if 49 < n then none
        else
          match needsRound cfg row with
          | none => none
          | some rd =>
              if (buildCandidates hcols row (cfg.sentenceIndex + 1)).1 = [] then none
              else some ⟨getCell row cfg.idIndex, getCell row cfg.sentenceIndex,
                (buildCandidates hcols row (cfg.sentenceIndex + 1)).1,
                (buildCandidates hcols row (cfg.sentenceIndex + 1)).2, rd⟩

/-- The eligibility pool: `allRows`, i.e. the accepted rows of the loop in
order (page.tsx line 129 / 204). -/
def allParsedRows (cfg : HeaderCfg) (hcols : List String)
    (rows : List (List String)) : List ParsedRow :=
  rows.filterMap (parsedRow cfg hcols)

/-- Bucket selection of the batch selector (page.tsx lines 217-224):
the round-1 bucket when non-empty, else the round-2 bucket when non-empty,
else the round-3 bucket. -/
def candidateRows (rows : List ParsedRow) : List ParsedRow :=
  if rows.filter (fun r => r.needsAnnotatorRound = 1) ≠ [] then
    rows.filter (fun r => r.needsAnnotatorRound = 1)
  else if rows.filter (fun r => r.needsAnnotatorRound = 2) ≠ [] then
    rows.filter (fun r => r.needsAnnotatorRound = 2)
  else rows.filter (fun r => r.needsAnnotatorRound = 3)

/-- Batch sampling (page.tsx lines 236-238): the candidate rows are
shuffled — modelled by an arbitrary permutation `shuffled` of
`candidateRows` — and the first 5 are taken. -/
def selectedRows (shuffled : List ParsedRow) : List ParsedRow :=
  shuffled.take 5

/-- A session row as held in the page's `data` state (the
`TranslationRow` interface of page.tsx): the sheet-order candidate lists
plus the mutable ranked lists shown to the annotator. -/
structure SessionRow where
  id : String
  sentence : String
  translations : List String
  translationColumns : List String
  rankedTranslations : List String
  rankedColumnNames : List String
deriving DecidableEq, Repr

/-- Construction of a freshly loaded session row (page.tsx lines 196-213):
the ranked lists are initialised to the candidates reordered by the
shuffled index list (`shuffledIndices`, an arbitrary permutation of
`0..len-1` produced by the random-comparator sort). -/
def mkLoadedRow (id sentence : String) (translations translationColumns : List String)
    (shuffledIndices : List Nat) : SessionRow :=
  { id := id
    sentence := sentence
    translations := translations
    translationColumns := translationColumns
    rankedTranslations := shuffledIndices.map fun i => translations.getD i ""
    rankedColumnNames := shuffledIndices.map fun i => translationColumns.getD i "" }

/-- List splice of a reorder (page.tsx lines 286-290): remove one element
at the source index, insert it back at the destination index. Out-of-range
source indices (never produced by the drag-and-drop library) leave the
list unchanged. -/
def spliceMove (l : List α) (src dst : Nat) : List α :=
  match l.get? src with
  | some x => (l.eraseIdx src).insertIdx dst x
  | none => l

/-- The reorder handler `onDragEnd` (page.tsx lines 275-296) restricted to
one row: the same splice is applied to the parallel `rankedTranslations`
and `rankedColumnNames` lists. -/
def onDragEnd (row : SessionRow) (src dst : Nat) : SessionRow :=
  { row with
    rankedTranslations := spliceMove row.rankedTranslations src dst
    rankedColumnNames := spliceMove row.rankedColumnNames src dst }

/-- A whole drag-and-drop session: the reorder operations applied in
sequence to one row. -/
def applyReorders (row : SessionRow) (ops : List (Nat × Nat)) : SessionRow :=
  ops.foldl (fun r op => onDragEnd r op.1 op.2) row

/-- The per-row reranking check of `checkAllInteractions` (page.tsx lines
303-305): the current ranked column keys differ from the row's
`translationColumns` (JSON.stringify equality of string lists is list
equality). -/
def hasReranked (row : SessionRow) : Bool :=
  decide (row.rankedColumnNames ≠ row.translationColumns)

/-- The per-row comment check of `checkAllInteractions` (page.tsx line
308): `comments[row.id] && comments[row.id].trim().length > 0`, with the
comment store modelled as a total map defaulting to the empty string (JS
`undefined` and `''` are both falsy). -/
def hasComment (comments : String → String) (id : String) : Bool :=
  decide (comments id ≠ "") && decide (0 < (strTrim (comments id)).length)

/-- The submit-readiness gate `checkAllInteractions` (page.tsx lines
299-312), whose value is `canSubmit` (line 314): false on an empty batch,
else every row must be reranked and commented. -/
def checkAllInteractions (data : List SessionRow) (comments : String → String) : Bool :=
  if data.length = 0 then false
  else data.all fun row => hasReranked row && hasComment comments row.id

/-- One data row of the backing sheet as seen by `doPost`
(google-apps-script.js): the id cell, the three `Annotator_n_Rankings`
cells and the three `Annotator_n_Comments` cells. Empty string is the
empty cell. -/
structure SheetRow where
  id : String
  r1 : String
  r2 : String
  r3 : String
  c1 : String
  c2 : String
  c3 : String
deriving DecidableEq, Repr, Inhabited

/-- Ranking cell of round `n ∈ {1,2,3}` of a sheet row. -/
def SheetRow.rank (row : SheetRow) : Nat → String
  | 1 => row.r1
  | 2 => row.r2
  | 3 => row.r3
  | _ => ""

/-- Comment cell of round `n ∈ {1,2,3}` of a sheet row. -/
def SheetRow.com (row : SheetRow) : Nat → String
  | 1 => row.c1
  | 2 => row.c2
  | 3 => row.c3
  | _ => ""

/-- Write `v` into the round-`n` ranking cell and `c` into the round-`n`
comment cell of a sheet row (the two `setValue` calls of doPost, lines
266-273). The store may coerce stored text; `distort` models what the
store retains for a written string (identity for a faithful store). -/
def SheetRow.write (row : SheetRow) (n : Nat) (v c : String)
    (distort : String → String) : SheetRow :=
  match n with
  | 1 => { row with r1 := distort v, c1 := distort c }
  | 2 => { row with r2 := distort v, c2 := distort c }
  | 3 => { row with r3 := distort v, c3 := distort c }
  | _ => row

/-- One submitted item of the POST body (`ann` in doPost): an id, the
ranked column keys, and the optional comment. -/
structure Submission where
  id : String
  rankings : List String
  comment : Option String
deriving DecidableEq, Repr

/-- Row lookup of doPost (lines 179-188): the first sheet row whose
trimmed id cell equals the submission id, from the id column snapshot
taken before the loop. Only data rows are modelled; the header row's id
cell ("id") matches no sentence id. -/
def findRowNum (snap : List SheetRow) (id : String) : Option Nat :=
  snap.findIdx? fun r => strTrim r.id = id

/-- Round-slot targeting of doPost (lines 199-227): the first round in
order 1, 2, 3 whose ranking cell is empty-or-whitespace in `snapRow`, the
row as captured by the `rankingColumnValues` snapshot read before the
annotation loop (lines 168-174) — not the live row. -/
def targetRound (snapRow : SheetRow) : Option Nat :=
  if strTrim snapRow.r1 = "" then some 1
  else if strTrim snapRow.r2 = "" then some 2
  else if strTrim snapRow.r3 = "" then some 3
  else none

/-- Payload validation of doPost (lines 240-264): reject an empty rankings
list; reject when some element is a non-empty string longer than 20
characters (`r && r.length > 20`, the translation-text heuristic); join
with commas and reject a blank joined string; otherwise return the joined
ranking string. -/
def validateRankings (rankings : List String) : Except String String :=
  if rankings.length = 0 then
    Except.error "Rankings array is empty"
  else if rankings.any (fun r => decide (r ≠ "") && decide (20 < r.length)) then
    Except.error "Received translation text instead of column names"
  else
    let s := String.intercalate "," rankings
    if strTrim s = "" then Except.error "Ranking string is empty after joining"
    else Except.ok s

/-- One per-submission entry of the `updates` array returned by doPost. -/
structure UpdateEntry where
  id : String
  success : Bool
  round : Option Nat
  ranking : Option String
  comment : Option String
  verifiedRanking : Option String
  verifiedComment : Option String
  errorMsg : Option String
deriving DecidableEq, Repr, Inhabited

/-- The two `setValue` calls of doPost for one submission (lines 266-273):
the live sheet with row `i`'s round-`rd` ranking cell set to `s` and its
round-`rd` comment cell set to `c` (as retained by the store). -/
def writeAt (distort : String → String) (cur : List SheetRow) (i rd : Nat)
    (s c : String) : List SheetRow :=
  cur.set i ((cur.getD i default).write rd s c distort)

/-- Processing of one submission inside the doPost loop (lines 179-311):
find the row by id in the snapshot, target the first round empty in the
snapshot, validate the payload, write ranking and comment to the live
sheet, read the two cells back and report them. `snap` is the pre-loop
snapshot, `cur` the live sheet. Returns the updated sheet and the entry
pushed to `updates`. -/
def processSubmission (distort : String → String) (snap : List SheetRow)
    (cur : List SheetRow) (ann : Submission) : List SheetRow × UpdateEntry :=
  match findRowNum snap ann.id with
  | none =>
      (cur, ⟨ann.id, false, none, none, none, none, none,
        some "Row not found"⟩)
  | some i =>
      match targetRound (snap.getD i default) with
      | none =>
          (cur, ⟨ann.id, false, none, none, none, none, none,
            some "All 3 annotator rounds are already filled for this sentence"⟩)
      | some rd =>
          match validateRankings ann.rankings with
          | Except.error e =>
              (cur, ⟨ann.id, false, none, none, none, none, none, some e⟩)
          | Except.ok s =>
              (writeAt distort cur i rd s (ann.comment.getD ""),
               ⟨ann.id, true, some rd, some s, some (ann.comment.getD ""),
                some (((writeAt distort cur i rd s (ann.comment.getD "")).getD i
                  default).rank rd),
                some (((writeAt distort cur i rd s (ann.comment.getD "")).getD i
                  default).com rd),
                none⟩)

/-- The annotation loop of doPost (lines 177-311): submissions processed
in order against the live sheet `cur`, with the id column and the three
ranking columns snapshotted once before the loop (lines 163-174) as
`snap`; one update entry is emitted per submission, in order. -/
def doPostLoop (distort : String → String) (snap : List SheetRow) :
    List SheetRow → List Submission → List SheetRow × List UpdateEntry
  | cur, [] => (cur, [])
  | cur, ann :: rest =>
      ((doPostLoop distort snap (processSubmission distort snap cur ann).1 rest).1,
       (processSubmission distort snap cur ann).2 ::
         (doPostLoop distort snap (processSubmission distort snap cur ann).1 rest).2)

/-- The whole doPost batch: the loop started on the initial sheet, which is
also the snapshot used for row lookup and round targeting. -/
def doPostProcess (distort : String → String) (sheet0 : List SheetRow)
    (anns : List Submission) : List SheetRow × List UpdateEntry :=
  doPostLoop distort sheet0 sheet0 anns

/-- A JSON value, for the parsed request body handled by the `POST`
function of `src/app/api/update-sheet/route.ts`. -/
inductive Json where
  | null : Json
  | bool (b : Bool) : Json
  | num (n : Int) : Json
  | str (s : String) : Json
  | arr (xs : List Json) : Json
  | obj (fields : List (String × Json)) : Json

/-- Field access on a JSON object: `body.annotations` is `none` (JS
`undefined`) when the field is absent or the body is not an object. -/
def Json.field (v : Json) (name : String) : Option Json :=
  match v with
  | Json.obj fields => (fields.find? fun f => f.1 = name).map Prod.snd
  | _ => none

/-- JS truthiness test, negated: `!x` is true for `undefined`, `null`,
`false`, `0`, `NaN` and the empty string. -/
def jsFalsy : Option Json → Bool
  | none => true
  | some Json.null => true
  | some (Json.bool b) => !b
  | some (Json.num n) => decide (n = 0)
  | some (Json.str s) => decide (s = "")
  | some (Json.arr _) => false
  | some (Json.obj _) => false

/-- JS `Array.isArray`. -/
def jsIsArray : Option Json → Bool
  | some (Json.arr _) => true
  | _ => false

/-- First step taken by the `POST` handler of route.ts: either an
immediate response produced before any external interaction, or the
external interaction it proceeds to. -/
inductive RouteStep where
  | respond (status : Nat) (errorMsg : String) : RouteStep
  | callAppsScript (anns : List Json) : RouteStep
  | fallbackCsvFetch (anns : List Json) : RouteStep

/-- The guard and dispatch at the top of the `POST` handler (route.ts
lines 39-53 and 126 on): a body that fails to parse as JSON throws and is
caught by the catch-all (status 500); a missing, falsy, non-array or empty
`annotations` field is answered 400 `Invalid annotations data` with no
call to the Apps Script and no read of the store; otherwise the handler
proceeds to the Apps Script call (when `GOOGLE_APPS_SCRIPT_URL` is set) or
to the fallback CSV fetch of the sheet. -/
def routePOSTstep (hasScriptUrl : Bool) (body : Option Json) : RouteStep :=
  match body with
  | none => RouteStep.respond 500 "Failed to process annotations"
  | some b =>
      let anns := b.field "annotations"
      if jsFalsy anns || !jsIsArray anns
          || decide ((match anns with
                      | some (Json.arr xs) => xs.length
                      | _ => 0) = 0) then
        RouteStep.respond 400 "Invalid annotations data"
      else
        match anns with
        | some (Json.arr xs) =>
            if hasScriptUrl then RouteStep.callAppsScript xs
            else RouteStep.fallbackCsvFetch xs
        | _ => RouteStep.respond 400 "Invalid annotations data"

section Helpers

variable {α : Type _} {β : Type _}

lemma set_eq_of_length_le' {l : List α} {i : Nat} (h : l.length ≤ i) (x : α) :
    l.set i x = l := by
  induction l generalizing i with
  | nil => rfl
  | cons a as ih =>
      cases i with
      | zero => simp at h
      | succ j =>
          simp only [List.length_cons, Nat.succ_le_succ_iff] at h
          simp [List.set, ih h]

lemma getD_set_ne {l : List α} {i j : Nat} (h : i ≠ j) (x d : α) :
    (l.set i x).getD j d = l.getD j d := by
  simp [List.getD_eq_getD_get?, List.get?_eq_getElem?, List.getElem?_set_ne h]

lemma getD_set_self {l : List α} {i : Nat} (h : i < l.length) (x d : α) :
    (l.set i x).getD i d = x := by
  simp [List.getD_eq_getD_get?, List.get?_eq_getElem?, List.getElem?_set_eq_of_lt x h]

lemma zip_get?_eq_some {a : List α} {b : List β} {n : Nat} {x : α} {y : β}
    (ha : a.get? n = some x) (hb : b.get? n = some y) :
    (a.zip b).get? n = some (x, y) := by
  induction a generalizing b n with
  | nil => simp at ha
  | cons a0 as ih =>
      cases b with
      | nil => simp at hb
      | cons b0 bs =>
          cases n with
          | zero => simp_all
          | succ m =>
              simp only [List.get?] at ha hb
              simpa using ih ha hb

lemma zip_eraseIdx (a : List α) (b : List β) (n : Nat) :
    (a.zip b).eraseIdx n = (a.eraseIdx n).zip (b.eraseIdx n) := by
  induction a generalizing b n with
  | nil => simp [List.eraseIdx]
  | cons a0 as ih =>
      cases b with
      | nil => simp [List.eraseIdx]
      | cons b0 bs =>
          cases n with
          | zero => simp [List.eraseIdx, List.zip]
          | succ m =>
              simp only [List.zip_cons_cons, List.eraseIdx]
              exact congrArg ((a0, b0) :: ·) (ih bs m)

lemma zip_insertIdx {a : List α} {b : List β} {n : Nat} (x : α) (y : β)
    (hlen : a.length = b.length) (hn : n ≤ a.length) :
    (a.insertIdx n x).zip (b.insertIdx n y) = (a.zip b).insertIdx n (x, y) := by
  induction n generalizing a b with
  | zero => simp [List.insertIdx_zero]
  | succ m ih =>
      cases a with
      | nil => simp at hn
      | cons a0 as =>
          cases b with
          | nil => simp at hlen
          | cons b0 bs =>
              simp only [List.length_cons] at hlen hn
              simp [List.insertIdx_succ_cons,
                ih (Nat.succ_injective hlen) (Nat.le_of_succ_le_succ hn)]

lemma perm_insertIdx (x : α) {l : List α} {n : Nat} (hn : n ≤ l.length) :
    (l.insertIdx n x).Perm (x :: l) := by
  induction n generalizing l with
  | zero => simp [List.insertIdx_zero]
  | succ m ih =>
      cases l with
      | nil => simp at hn
      | cons a as =>
          simp only [List.length_cons] at hn
          rw [List.insertIdx_succ_cons]
          exact ((ih (Nat.le_of_succ_le_succ hn)).cons a).trans
            (List.Perm.swap x a as)

lemma perm_cons_eraseIdx {l : List α} {n : Nat} {x : α} (h : l.get? n = some x) :
    (x :: l.eraseIdx n).Perm l := by
  induction l generalizing n with
  | nil => simp at h
  | cons a as ih =>
      cases n with
      | zero =>
          simp only [List.get?] at h
          cases h
          simp [List.eraseIdx]
      | succ m =>
          simp only [List.get?] at h
          show (x :: a :: as.eraseIdx m).Perm (a :: as)
          exact (List.Perm.swap a x (as.eraseIdx m)).trans ((ih h).cons a)

end Helpers

/-- C10: for every POST body whose `annotations` field is missing, not an
array, or an empty array, the update-sheet handler answers status 400 with
the error message `Invalid annotations data`, performing no call to the
Apps Script and no read of the store (the response is produced before
either external step). -/
theorem C10_post_guard (hasUrl : Bool) (b : Json)
    (h : b.field "annotations" = none ∨
         (∀ xs, b.field "annotations" ≠ some (Json.arr xs)) ∨
         b.field "annotations" = some (Json.arr [])) :
    routePOSTstep hasUrl (some b) = RouteStep.respond 400 "Invalid annotations data" := by
  unfold routePOSTstep
  rcases h with h | h | h
  · simp [h, jsFalsy]
  · rcases ha : b.field "annotations" with _ | v
    · simp [jsFalsy]
    · cases v with
      | arr xs => exact absurd ha (h xs)
      | null => simp [ha, jsFalsy, jsIsArray]
      | bool bv => cases bv <;> simp [ha, jsFalsy, jsIsArray]
      | num n => by_cases hn : n = 0 <;> simp [ha, jsFalsy, jsIsArray, hn]
      | str sv => by_cases hs : sv = "" <;> simp [ha, jsFalsy, jsIsArray, hs]
      | obj fields => simp [ha, jsFalsy, jsIsArray]
  · simp [h, jsFalsy, jsIsArray]

/-- Witness for C10: the guard fires on a concrete body with an empty
`annotations` array. -/
theorem C10_post_guard_witness :
    routePOSTstep true (some (Json.obj [("annotations", Json.arr [])])) =
      RouteStep.respond 400 "Invalid annotations data" :=
  C10_post_guard true (Json.obj [("annotations", Json.arr [])]) (Or.inr (Or.inr rfl))

/-- C7: a raw row whose id or sentence cell is missing, whose id has no
numeric component, or whose numeric component exceeds the valid range 0-49
is discarded by the row parser (no error, just skipped), and contributes
nothing to the eligibility pool — hence to no batch drawn from it. -/
theorem C7_parse_discard (cfg : HeaderCfg) (hcols : List String) (row : List String)
    (h : getCell row cfg.idIndex = "" ∨ getCell row cfg.sentenceIndex = "" ∨
         numericId (getCell row cfg.idIndex) = none ∨
         (∃ n, numericId (getCell row cfg.idIndex) = some n ∧ 49 < n)) :
    parsedRow cfg hcols row = none ∧
    ∀ rows, allParsedRows cfg hcols (row :: rows) = allParsedRows cfg hcols rows := by
  have hnone : parsedRow cfg hcols row = none := by
    unfold parsedRow
    split
    · rfl
    split
    · rfl
    rename_i hmiss
    rcases h with h | h | h | ⟨n, hn, hgt⟩
    · exact absurd (Or.inl h) hmiss
    · exact absurd (Or.inr h) hmiss
    · rw [h]
    · rw [hn]
      simp [hgt]
  refine ⟨hnone, fun rows => ?_⟩
  simp [allParsedRows, List.filterMap_cons, hnone]

/-- Standard header configuration used by the concrete instances: id in
column 0, sentence in column 1, candidates in columns 2-8, the six
annotator columns in columns 9-14 (as in the sheet layout of the repo). -/
def cfg7 : HeaderCfg := ⟨0, 1, some 9, some 10, some 11, some 12, some 13, some 14⟩

/-- The 7 candidate column keys of the sheet. -/
def hcols7 : List String := ["ad", "an", "bo", "ca", "op", "pa", "no"]

/-- A raw row with id "99": eligible shape, but numeric id out of range. -/
def row99 : List String :=
  ["99", "hola", "t1", "t2", "t3", "t4", "t5", "t6", "t7"]

/-- Witness for C7: the row with id "99" (valid range 0-49) is discarded. -/
theorem C7_parse_discard_witness : parsedRow cfg7 hcols7 row99 = none :=
  (C7_parse_discard cfg7 hcols7 row99 (Or.inr (Or.inr (Or.inr ⟨99, by decide, by decide⟩)))).1

/-- A raw row under `cfg7` whose round-1 ranking is filled but whose
round-1 comment is empty, with rounds 2 and 3 entirely empty. -/
def rowHalfRound1 : List String :=
  ["5", "hola", "t1", "t2", "t3", "t4", "t5", "t6", "t7",
   "ad,an,bo,ca,op,pa,no", "", "", "", "", ""]

/-- Counterexample to C4: the claim says the classifier returns the first
round whose ranking is empty (round 2 here, since round 1's ranking is
filled), with a round complete iff its ranking cell is non-empty. The code
instead also requires the round's comment when both annotator columns are
resolved in the header: on this row the round-1 ranking is non-empty and
the round-2 ranking is empty, yet the classifier returns round 1 (because
the round-1 comment is empty). -/
theorem C4_counterexample :
    needsRound cfg7 rowHalfRound1 = some 1 ∧
    annValue rowHalfRound1 cfg7.a1Rank ≠ "" ∧
    annValue rowHalfRound1 cfg7.a2Rank = "" := by
  refine ⟨rfl, ?_, rfl⟩
  decide

/-- C4 (amended): rounds are evaluated in fixed order 1, 2, 3 and the
classifier returns the first incomplete round, where a round is complete
iff its ranking cell is non-empty and — when both the round's ranking and
comment columns are resolved in the header — its comment cell is also
non-empty; `none` is returned only when all rounds are complete. -/
theorem C4_first_incomplete (cfg : HeaderCfg) (row : List String) :
    (∀ n, needsRound cfg row = some n →
      (n = 1 ∨ n = 2 ∨ n = 3) ∧ roundCompleteN cfg row n = false ∧
        ∀ m, 0 < m → m < n → roundCompleteN cfg row m = true) ∧
    (needsRound cfg row = none → ∀ n, roundCompleteN cfg row n = true) := by
  unfold needsRound
  rcases h1 : roundComplete row cfg.a1Rank cfg.a1Com with _ | _
  · constructor
    · intro n hn
      simp at hn
      subst hn
      refine ⟨Or.inl rfl, by simp [roundCompleteN, h1], ?_⟩
      intro m hm1 hm2
      omega
    · intro hn
      simp at hn
  · rcases h2 : roundComplete row cfg.a2Rank cfg.a2Com with _ | _
    · constructor
      · intro n hn
        simp at hn
        subst hn
        refine ⟨Or.inr (Or.inl rfl), by simp [roundCompleteN, h2], ?_⟩
        intro m hm1 hm2
        interval_cases m
        simp [roundCompleteN, h1]
      · intro hn
        simp at hn
    · rcases h3 : roundComplete row cfg.a3Rank cfg.a3Com with _ | _
      · constructor
        · intro n hn
          simp at hn
          subst hn
          refine ⟨Or.inr (Or.inr rfl), by simp [roundCompleteN, h3], ?_⟩
          intro m hm1 hm2
          interval_cases m
          · simp [roundCompleteN, h1]
          · simp [roundCompleteN, h2]
        · intro hn
          simp at hn
      · constructor
        · intro n hn
          simp at hn
        · intro hn n
          rcases n with _ | _ | _ | _ | k <;>
            simp [roundCompleteN, h1, h2, h3]

/-- A raw row matching Scenario B: rounds 1 and 2 fully filled (ranking
and comment), round 3 empty. -/
def rowScenarioB : List String :=
  ["5", "hola", "t1", "t2", "t3", "t4", "t5", "t6", "t7",
   "ad,an,bo,ca,op,pa,no", "no,pa,op,ca,bo,an,ad", "", "good", "fine", ""]

/-- Witness for C4 (amended), instantiating Scenario B: the classifier
returns round 3 on a record with rounds 1 and 2 filled and round 3 empty,
and round 3 is indeed incomplete. -/
theorem C4_first_incomplete_witness : roundCompleteN cfg7 rowScenarioB 3 = false :=
  ((C4_first_incomplete cfg7 rowScenarioB).1 3 (by decide)).2.1

/-- A freshly loaded session row whose initial randomized display order
`["b", "a"]` differs from the sheet order `["a", "b"]`. -/
def freshRow : SessionRow := mkLoadedRow "0" "s" ["ta", "tb"] ["a", "b"] [1, 0]

/-- Counterexample to C3: a batch holding the freshly loaded `freshRow`
with no reorder applied, so its current ranking equals its initial
randomized display order `["b", "a"]` — the claim requires `canSubmit` to
be false. Yet with a non-empty comment the gate returns true, because the
code compares the current order against the sheet-order candidate column
list (`translationColumns`), not against the initial display order. -/
theorem C3_counterexample :
    (applyReorders freshRow []).rankedColumnNames = freshRow.rankedColumnNames ∧
    freshRow.rankedColumnNames = ["b", "a"] ∧
    checkAllInteractions [applyReorders freshRow []] (fun _ => "good") = true :=
  ⟨rfl, rfl, rfl⟩

/-- C3 (amended): `canSubmit` is true iff the batch is non-empty and every
sentence's current ranked column keys differ from its sheet-order
candidate columns (`translationColumns` — the un-shuffled parse order,
not the initial randomized display order) and its comment is non-empty
after trimming. -/
theorem C3_gate_characterization (data : List SessionRow) (comments : String → String) :
    checkAllInteractions data comments = true ↔
      data ≠ [] ∧ ∀ row ∈ data,
        row.rankedColumnNames ≠ row.translationColumns ∧
        comments row.id ≠ "" ∧ 0 < (strTrim (comments row.id)).length := by
  unfold checkAllInteractions hasReranked hasComment
  split
  · rename_i h
    rw [List.length_eq_zero] at h
    simp [h]
  · rename_i h
    rw [List.length_eq_zero] at h
    rw [List.all_eq_true]
    simp [h, Bool.and_eq_true, decide_eq_true_eq, and_assoc]

lemma spliceMove_perm {l : List α} {src dst : Nat} (hs : src < l.length)
    (hd : dst < l.length) : (spliceMove l src dst).Perm l := by
  unfold spliceMove
  rcases hx : l.get? src with _ | x
  · exact List.Perm.refl l
  · have hlen : (l.eraseIdx src).length + 1 = l.length :=
      List.length_eraseIdx_add_one hs
    exact (perm_insertIdx x (by omega)).trans (perm_cons_eraseIdx hx)

lemma spliceMove_length {l : List α} {src dst : Nat} (hs : src < l.length)
    (hd : dst < l.length) : (spliceMove l src dst).length = l.length :=
  (spliceMove_perm hs hd).length_eq

lemma spliceMove_zip {a : List α} {b : List β} {src dst : Nat}
    (hlen : a.length = b.length) (hs : src < a.length) (hd : dst < a.length) :
    (spliceMove a src dst).zip (spliceMove b src dst) = spliceMove (a.zip b) src dst := by
  have hsb : src < b.length := hlen ▸ hs
  rcases ha : a.get? src with _ | x
  · rw [List.get?_eq_none] at ha
    omega
  · rcases hb : b.get? src with _ | y
    · rw [List.get?_eq_none] at hb
      omega
    · have hab : (a.zip b).get? src = some (x, y) := zip_get?_eq_some ha hb
      unfold spliceMove
      rw [ha, hb, hab]
      have hea : (a.eraseIdx src).length + 1 = a.length :=
        List.length_eraseIdx_add_one hs
      have heb : (b.eraseIdx src).length + 1 = b.length :=
        List.length_eraseIdx_add_one hsb
      rw [zip_insertIdx x y (by omega) (by omega), zip_eraseIdx]

/-- C9: for every sequence of in-range reorder operations applied to a
session row with aligned ranked lists, the two ranked lists keep their
lengths, stay index-aligned — the zipped (text, columnKey) pair list
undergoes exactly the same splice sequence, so the pair at each position
is one of the original pairs, moved whole — the ranked column keys remain
a permutation of what they started as (hence of the record's original
candidate columnKeys whenever the start was such a permutation), and the
sheet-order candidate list is untouched. -/
theorem C9_reorder_alignment (row : SessionRow) (ops : List (Nat × Nat))
    (hlen : row.rankedTranslations.length = row.rankedColumnNames.length)
    (hops : ∀ op ∈ ops, op.1 < row.rankedColumnNames.length ∧
        op.2 < row.rankedColumnNames.length) :
    (applyReorders row ops).rankedTranslations.length = row.rankedTranslations.length ∧
    (applyReorders row ops).rankedColumnNames.length = row.rankedColumnNames.length ∧
    (applyReorders row ops).rankedTranslations.zip
        (applyReorders row ops).rankedColumnNames =
      ops.foldl (fun z op => spliceMove z op.1 op.2)
        (row.rankedTranslations.zip row.rankedColumnNames) ∧
    (applyReorders row ops).rankedColumnNames.Perm row.rankedColumnNames ∧
    (applyReorders row ops).translationColumns = row.translationColumns ∧
    ∀ orig, row.rankedColumnNames.Perm orig →
      (applyReorders row ops).rankedColumnNames.Perm orig := by
  induction ops generalizing row with
  | nil =>
      exact ⟨rfl, rfl, rfl, List.Perm.refl _, rfl, fun _ h => h⟩
  | cons op rest ih =>
      obtain ⟨hs, hd⟩ := hops op (List.mem_cons_self op rest)
      have hsT : op.1 < row.rankedTranslations.length := by omega
      have hdT : op.2 < row.rankedTranslations.length := by omega
      have hstep : applyReorders row (op :: rest) =
          applyReorders (onDragEnd row op.1 op.2) rest := rfl
      have hT : (onDragEnd row op.1 op.2).rankedTranslations =
          spliceMove row.rankedTranslations op.1 op.2 := rfl
      have hK : (onDragEnd row op.1 op.2).rankedColumnNames =
          spliceMove row.rankedColumnNames op.1 op.2 := rfl
      have hlT : (onDragEnd row op.1 op.2).rankedTranslations.length =
          row.rankedTranslations.length := by
        rw [hT]; exact spliceMove_length hsT hdT
      have hlK : (onDragEnd row op.1 op.2).rankedColumnNames.length =
          row.rankedColumnNames.length := by
        rw [hK]; exact spliceMove_length hs hd
      have hlen' : (onDragEnd row op.1 op.2).rankedTranslations.length =
          (onDragEnd row op.1 op.2).rankedColumnNames.length := by
        rw [hlT, hlK]; exact hlen
      have hops' : ∀ o ∈ rest,
          o.1 < (onDragEnd row op.1 op.2).rankedColumnNames.length ∧
          o.2 < (onDragEnd row op.1 op.2).rankedColumnNames.length := by
        intro o ho
        rw [hlK]
        exact hops o (List.mem_cons_of_mem op ho)
      obtain ⟨ih1, ih2, ih3, ih4, ih5, ih6⟩ := ih (onDragEnd row op.1 op.2) hlen' hops'
      refine ⟨?_, ?_, ?_, ?_, ?_, ?_⟩
      · rw [hstep, ih1, hlT]
      · rw [hstep, ih2, hlK]
      · rw [hstep, ih3, List.foldl_cons, hT, hK,
          spliceMove_zip hlen hsT (by omega)]
      · rw [hstep]
        exact ih4.trans (hK ▸ spliceMove_perm hs hd)
      · rw [hstep, ih5]
        rfl
      · intro orig hperm
        rw [hstep]
        exact ih6 orig ((hK ▸ spliceMove_perm hs hd).trans hperm)

/-- A concrete loaded row with three candidates, display order unshuffled. -/
def rowDrag : SessionRow := mkLoadedRow "0" "s" ["ta", "tb", "tc"] ["a", "b", "c"] [0, 1, 2]

/-- Witness for C9: after two concrete in-range reorders, the ranked
column keys are still a permutation of the starting keys. -/
theorem C9_reorder_alignment_witness :
    (applyReorders rowDrag [(0, 2), (1, 0)]).rankedColumnNames.Perm
      rowDrag.rankedColumnNames :=
  (C9_reorder_alignment rowDrag [(0, 2), (1, 0)] rfl (by decide)).2.2.2.1

/-- C5: global round priority of the batch selector — when any parsed
record needs round 1, the chosen bucket is exactly the round-1 bucket and
every record of any batch drawn from it is tagged round 1; a round-2
record is offered only when the round-1 bucket is empty, and a round-3
record only when both lower buckets are empty. -/
theorem C5_round_priority (rows : List ParsedRow) :
    ((∃ r ∈ rows, r.needsAnnotatorRound = 1) →
        candidateRows rows = rows.filter (fun r => r.needsAnnotatorRound = 1) ∧
        ∀ (shuffled : List ParsedRow), shuffled.Perm (candidateRows rows) →
          ∀ x ∈ selectedRows shuffled, x.needsAnnotatorRound = 1) ∧
    ((∃ r ∈ candidateRows rows, r.needsAnnotatorRound = 2) →
        rows.filter (fun r => r.needsAnnotatorRound = 1) = []) ∧
    ((∃ r ∈ candidateRows rows, r.needsAnnotatorRound = 3) →
        rows.filter (fun r => r.needsAnnotatorRound = 1) = [] ∧
        rows.filter (fun r => r.needsAnnotatorRound = 2) = []) := by
  refine ⟨?_, ?_, ?_⟩
  · rintro ⟨r, hr, hneeds⟩
    have hmem : r ∈ rows.filter (fun r => r.needsAnnotatorRound = 1) :=
      List.mem_filter.mpr ⟨hr, by simp [hneeds]⟩
    have hne : rows.filter (fun r => r.needsAnnotatorRound = 1) ≠ [] :=
      List.ne_nil_of_mem hmem
    have hcand : candidateRows rows = rows.filter (fun r => r.needsAnnotatorRound = 1) := by
      unfold candidateRows
      rw [if_pos hne]
    refine ⟨hcand, ?_⟩
    intro shuffled hperm x hx
    have hx' : x ∈ candidateRows rows :=
      hperm.mem_iff.mp (List.mem_of_mem_take hx)
    rw [hcand] at hx'
    simpa using (List.mem_filter.mp hx').2
  · rintro ⟨r, hr, hneeds⟩
    by_cases h1 : rows.filter (fun r => r.needsAnnotatorRound = 1) = []
    · exact h1
    · exfalso
      unfold candidateRows at hr
      rw [if_pos h1] at hr
      have : r.needsAnnotatorRound = 1 := by simpa using (List.mem_filter.mp hr).2
      omega
  · rintro ⟨r, hr, hneeds⟩
    by_cases h1 : rows.filter (fun r => r.needsAnnotatorRound = 1) = []
    · by_cases h2 : rows.filter (fun r => r.needsAnnotatorRound = 2) = []
      · exact ⟨h1, h2⟩
      · exfalso
        unfold candidateRows at hr
        rw [if_neg (by simpa using h1), if_pos h2] at hr
        have : r.needsAnnotatorRound = 2 := by simpa using (List.mem_filter.mp hr).2
        omega
    · exfalso
      unfold candidateRows at hr
      rw [if_pos h1] at hr
      have : r.needsAnnotatorRound = 1 := by simpa using (List.mem_filter.mp hr).2
      omega

/-- Scenario A's store: three raw rows with ids "0", "1", "2" and all
annotation rounds empty (rows shorter than the annotator columns). -/
def rawRowsA : List (List String) :=
  [["0", "s0", "t1", "t2", "t3", "t4", "t5", "t6", "t7"],
   ["1", "s1", "t1", "t2", "t3", "t4", "t5", "t6", "t7"],
   ["2", "s2", "t1", "t2", "t3", "t4", "t5", "t6", "t7"]]

/-- The parsed eligibility pool of Scenario A. -/
def poolA : List ParsedRow := allParsedRows cfg7 hcols7 rawRowsA

/-- Witness for C5: on Scenario A's pool (all three records need round 1),
the chosen bucket is exactly the round-1 bucket. -/
theorem C5_round_priority_witness :
    candidateRows poolA = poolA.filter (fun r => r.needsAnnotatorRound = 1) :=
  ((C5_round_priority poolA).1 (by decide)).1

/-- C8: the batch drawn from the chosen bucket — under any shuffle of the
bucket — has exactly `min 5 bucketSize` records, every one of them from
that single bucket, and is the whole bucket (up to order) whenever the
bucket has at most 5 records. -/
theorem C8_batch_bound (rows shuffled : List ParsedRow)
    (hperm : shuffled.Perm (candidateRows rows)) :
    (selectedRows shuffled).length = min 5 (candidateRows rows).length ∧
    (∀ x ∈ selectedRows shuffled, x ∈ candidateRows rows) ∧
    ((candidateRows rows).length ≤ 5 →
        (selectedRows shuffled).Perm (candidateRows rows)) := by
  refine ⟨?_, ?_, ?_⟩
  · simp [selectedRows, List.length_take, hperm.length_eq]
  · intro x hx
    exact hperm.mem_iff.mp (List.mem_of_mem_take hx)
  · intro h
    have hle : shuffled.length ≤ 5 := by rw [hperm.length_eq]; exact h
    rw [selectedRows, List.take_of_length_le hle]
    exact hperm

/-- Witness for C8, instantiating Scenario A: the bucket has 3 records
(fewer than the batch size 5) and the selected batch is the whole bucket. -/
theorem C8_batch_bound_witness :
    (selectedRows (candidateRows poolA)).Perm (candidateRows poolA) :=
  (C8_batch_bound poolA (candidateRows poolA) (List.Perm.refl _)).2.2 (by decide)

lemma targetRound_spec {s : SheetRow} {rd : Nat} (h : targetRound s = some rd) :
    (rd = 1 ∨ rd = 2 ∨ rd = 3) ∧ strTrim (s.rank rd) = "" := by
  unfold targetRound at h
  split at h
  · rename_i h1
    cases h
    exact ⟨Or.inl rfl, h1⟩
  split at h
  · rename_i h2
    cases h
    exact ⟨Or.inr (Or.inl rfl), h2⟩
  split at h
  · rename_i h3
    cases h
    exact ⟨Or.inr (Or.inr rfl), h3⟩
  · cases h

lemma write_rank_ne (r : SheetRow) {rd0 rd : Nat} (v c : String)
    (distort : String → String) (h : rd ≠ rd0) :
    (r.write rd0 v c distort).rank rd = r.rank rd := by
  unfold SheetRow.write SheetRow.rank
  rcases rd0 with _ | _ | _ | _ | k <;> rcases rd with _ | _ | _ | _ | m <;>
    first
      | rfl
      | exact absurd rfl h

lemma processSubmission_rank_preserved (distort : String → String)
    (snap cur : List SheetRow) (ann : Submission)
    (hcur : ∀ i rd, strTrim ((snap.getD i default).rank rd) ≠ "" →
        (cur.getD i default).rank rd = (snap.getD i default).rank rd) :
    ∀ i rd, strTrim ((snap.getD i default).rank rd) ≠ "" →
      ((processSubmission distort snap cur ann).1.getD i default).rank rd
        = (snap.getD i default).rank rd := by
  intro i rd hne
  unfold processSubmission
  rcases hfind : findRowNum snap ann.id with _ | i0
  · simp only [hfind]
    exact hcur i rd hne
  · rcases htr : targetRound (snap.getD i0 default) with _ | rd0
    · simp only [hfind, htr]
      exact hcur i rd hne
    · rcases hval : validateRankings ann.rankings with e | s
      · simp only [hfind, htr, hval]
        exact hcur i rd hne
      · simp only [hfind, htr, hval]
        show ((writeAt distort cur i0 rd0 s (ann.comment.getD "")).getD i
            default).rank rd = (snap.getD i default).rank rd
        unfold writeAt
        by_cases hii : i0 = i
        · subst hii
          have hrd : rd ≠ rd0 := by
            intro hcontr
            subst hcontr
            exact hne (targetRound_spec htr).2
          by_cases hlt : i0 < cur.length
          · rw [getD_set_self hlt]
            rw [write_rank_ne _ _ _ _ hrd]
            exact hcur i0 rd hne
          · rw [set_eq_of_length_le' (Nat.le_of_not_lt hlt)]
            exact hcur i0 rd hne
        · rw [getD_set_ne hii]
          exact hcur i rd hne

lemma doPostLoop_rank_preserved (distort : String → String)
    (snap : List SheetRow) (anns : List Submission) :
    ∀ (cur : List SheetRow),
      (∀ i rd, strTrim ((snap.getD i default).rank rd) ≠ "" →
          (cur.getD i default).rank rd = (snap.getD i default).rank rd) →
      ∀ i rd, strTrim ((snap.getD i default).rank rd) ≠ "" →
        ((doPostLoop distort snap cur anns).1.getD i default).rank rd
          = (snap.getD i default).rank rd := by
  induction anns with
  | nil => intro cur h i rd hne; exact h i rd hne
  | cons ann rest ih =>
      intro cur h i rd hne
      exact ih (processSubmission distort snap cur ann).1
        (processSubmission_rank_preserved distort snap cur ann h) i rd hne

/-- The one-row sheet used by the concrete commit instances: sentence id
"7" with all three rounds empty. -/
def sheetDup : List SheetRow := [⟨"7", "", "", "", "", "", ""⟩]

/-- First submission of the duplicate-id batch. -/
def subFirst : Submission := ⟨"7", ["ca"], some "first"⟩

/-- Second submission of the duplicate-id batch, same sentence id. -/
def subSecond : Submission := ⟨"7", ["no"], some "second"⟩

/-- Counterexample to C1: the ranking columns are snapshotted once per
doPost call, not re-read at commit time. In one batch holding two
submissions for sentence id "7" (all rounds initially empty), the first
commit fills round 1 with "ca"; the second commit still targets round 1
(the snapshot shows it empty), is reported as a round-1 success, and
overwrites the now non-empty cell with "no" — a filled ranking cell is
overwritten by a later commit, and that write targeted a slot that was
not empty at the time of the write. -/
theorem C1_counterexample :
    ((doPostProcess id sheetDup [subFirst]).1.getD 0 default).r1 = "ca" ∧
    ((doPostProcess id sheetDup [subFirst, subSecond]).1.getD 0 default).r1 = "no" ∧
    ((doPostProcess id sheetDup [subFirst, subSecond]).2.getD 1 default).round = some 1 ∧
    ((doPostProcess id sheetDup [subFirst, subSecond]).2.getD 1 default).success = true := by
  decide

/-- C1 (amended): the three rounds' ranking cells are read once at the
start of each doPost call; every write targets the first round whose
ranking cell was empty in that snapshot, so a ranking cell that is
non-empty (after trimming) when a doPost call starts is never changed by
that call — across successive calls round state only transitions
empty→filled. Within a single batch, however, two submissions with the
same sentence id target the same round slot and the later one overwrites
the earlier (see the counterexample). -/
theorem C1_snapshot_monotonicity (distort : String → String)
    (sheet0 : List SheetRow) (anns : List Submission) (i rd : Nat)
    (h : strTrim ((sheet0.getD i default).rank rd) ≠ "") :
    ((doPostProcess distort sheet0 anns).1.getD i default).rank rd
      = (sheet0.getD i default).rank rd :=
  doPostLoop_rank_preserved distort sheet0 anns sheet0 (fun _ _ _ => rfl) i rd h

/-- A one-row sheet whose round-1 ranking cell is already filled. -/
def sheetFilled1 : List SheetRow := [⟨"7", "already", "", "", "done", "", ""⟩]

/-- Witness for C1 (amended): on a sheet whose round-1 cell is filled, a
doPost batch leaves that cell untouched (the submission lands in round 2). -/
theorem C1_snapshot_monotonicity_witness :
    ((doPostProcess id sheetFilled1 [subSecond]).1.getD 0 default).rank 1
      = ((sheetFilled1.getD 0 default)).rank 1 :=
  C1_snapshot_monotonicity id sheetFilled1 [subSecond] 0 1 (by decide)

/-- The Scenario C submission: "xx" is not a valid columnKey of the
sentence's candidates. -/
def subXX : Submission := ⟨"7", ["xx", "ca", "an", "bo", "op", "pa", "no"], some "c"⟩

/-- Counterexample to C2: the ranking list `["xx","ca","an","bo","op",
"pa","no"]` is not a permutation of the candidate columnKeys (`"xx"` is
not one of `ad,an,bo,ca,op,pa,no`), yet the commit coordinator accepts it
— its only payload check is the length-threshold heuristic (reject
non-empty elements longer than 20 characters) — reports success, and
writes the joined string to the round-1 ranking cell. -/
theorem C2_counterexample :
    ((doPostProcess id sheetDup [subXX]).2.getD 0 default).success = true ∧
    ((doPostProcess id sheetDup [subXX]).1.getD 0 default).r1
      = "xx,ca,an,bo,op,pa,no" := by
  decide

lemma validateRankings_error_of {rankings : List String}
    (h : rankings = [] ∨ ∃ r ∈ rankings, r ≠ "" ∧ 20 < r.length) :
    ∃ e, validateRankings rankings = Except.error e := by
  rcases h with h | ⟨r, hmem, hne, hlen⟩
  · subst h
    exact ⟨_, rfl⟩
  · refine ⟨"Received translation text instead of column names", ?_⟩
    unfold validateRankings
    rw [if_neg, if_pos]
    · exact List.any_eq_true.mpr ⟨r, hmem, by simp [hne, hlen]⟩
    · rw [List.length_eq_zero]
      exact List.ne_nil_of_mem hmem

/-- C2 (amended): the commit coordinator rejects a submission — per-item
failure entry, no write to the sheet — when its rankings list is empty or
contains a non-empty element longer than 20 characters (the
translation-text heuristic); it performs no permutation check against the
candidate columnKeys, so a list of short invalid keys such as
`["xx","ca","an","bo","op","pa","no"]` passes validation and is written
(see the counterexample). -/
theorem C2_heuristic_only (distort : String → String)
    (snap cur : List SheetRow) (ann : Submission)
    (h : ann.rankings = [] ∨ ∃ r ∈ ann.rankings, r ≠ "" ∧ 20 < r.length) :
    (processSubmission distort snap cur ann).1 = cur ∧
    (processSubmission distort snap cur ann).2.success = false := by
  obtain ⟨e, he⟩ := validateRankings_error_of h
  unfold processSubmission
  rcases hfind : findRowNum snap ann.id with _ | i0
  · exact ⟨rfl, rfl⟩
  · rcases htr : targetRound (snap.getD i0 default) with _ | rd0
    · simp only [hfind, htr]
      exact ⟨trivial, trivial⟩
    · simp only [hfind, htr, he]
      exact ⟨trivial, trivial⟩

/-- A submission whose first ranking element is a sentence, not a key. -/
def subLong : Submission :=
  ⟨"7", ["this element is far longer than twenty characters"], some "c"⟩

/-- Witness for C2 (amended): a rankings list holding a 49-character
element is rejected and the sheet is unchanged. -/
theorem C2_heuristic_only_witness :
    (processSubmission id sheetDup sheetDup subLong).1 = sheetDup :=
  (C2_heuristic_only id sheetDup sheetDup subLong
    (Or.inr ⟨"this element is far longer than twenty characters",
      by decide, by decide, by decide⟩)).1

/-- Counterexample to C6: against a store that retains different content
than was written (here every write is retained as "GARBLED"), the commit
coordinator still reports the submission as a success: the read-back
(`verifiedRanking = "GARBLED"`) differs from the intended ranking string
(`"ca"`), yet no comparison is made, `success` is `true`, and no
`VerificationFailed` failure is produced — the claim that success is
reported only when the read-back matches what was written is false. -/
theorem C6_counterexample :
    ((doPostProcess (fun _ => "GARBLED") sheetDup [subFirst]).2.getD 0 default).success
      = true ∧
    ((doPostProcess (fun _ => "GARBLED") sheetDup [subFirst]).2.getD 0
        default).verifiedRanking = some "GARBLED" ∧
    ((doPostProcess (fun _ => "GARBLED") sheetDup [subFirst]).2.getD 0
        default).ranking = some "ca" ∧
    ((doPostProcess (fun _ => "GARBLED") sheetDup [subFirst]).2.getD 0
        default).verifiedRanking ≠
      ((doPostProcess (fun _ => "GARBLED") sheetDup [subFirst]).2.getD 0
        default).ranking := by
  decide

/-- C6 (amended): after writing, the commit coordinator reads the two
written cells back and reports them verbatim in the `verifiedRanking` and
`verifiedComment` fields of the per-submission result, but performs no
comparison against the intended values: whenever the write executes (row
found, round slot available, payload passes the heuristic), the entry is
marked `success` with no error — regardless of whether the store's
read-back matches — and no `VerificationFailed` failure kind exists. -/
theorem C6_readback_reported (distort : String → String)
    (snap cur : List SheetRow) (ann : Submission) (i0 rd0 : Nat) (s : String)
    (h1 : findRowNum snap ann.id = some i0)
    (h2 : targetRound (snap.getD i0 default) = some rd0)
    (h3 : validateRankings ann.rankings = Except.ok s) :
    (processSubmission distort snap cur ann).2.success = true ∧
    (processSubmission distort snap cur ann).2.ranking = some s ∧
    (processSubmission distort snap cur ann).2.verifiedRanking =
      some (((processSubmission distort snap cur ann).1.getD i0 default).rank rd0) ∧
    (processSubmission distort snap cur ann).2.verifiedComment =
      some (((processSubmission distort snap cur ann).1.getD i0 default).com rd0) ∧
    (processSubmission distort snap cur ann).2.errorMsg = none := by
  unfold processSubmission
  simp only [h1, h2, h3]
  exact ⟨trivial, trivial, trivial, trivial, trivial⟩

/-- Witness for C6 (amended): the concrete distorting store — the entry is
a success and reports the store's (mismatching) read-back. -/
theorem C6_readback_reported_witness :
    (processSubmission (fun _ => "GARBLED") sheetDup sheetDup subFirst).2.success = true :=
  (C6_readback_reported (fun _ => "GARBLED") sheetDup sheetDup subFirst 0 1 "ca"
    (by decide) (by decide) rfl).1
